import Mathlib

/-!
Verification of the statistics aggregation core of `rust-finger`
(`src/stats.rs`), as a shallow embedding in Lean 4.

Modelling conventions, chosen once for the whole file:

* `Instant` is modelled as a `Nat` of milliseconds on a monotonic clock;
  `Duration::from_millis(k)` is the literal `k`; `now.duration_since(t)`
  is truncated subtraction `now - t`, which matches Rust's saturating
  `Instant::duration_since`.
* A sample of the wall clock taken inside one `record_*` call
  (`Instant::now()`, `Local::now().hour()`, `Local::now().format("%Y-%m-%d")`)
  is a `Clock` record passed explicitly to the operation.
* `HashMap<K, V>` is an association list `List (K × V)`; `entry(k).or_insert(d)`
  followed by a mutation is `entryUpdate`, which rewrites the first binding of
  `k` in place and appends a fresh binding otherwise.  Iteration order of a
  `HashMap` is unspecified in Rust; the list order is one admissible order and
  no theorem below depends on it.
* `u64` counters are `Nat`.  They grow by exactly 1 per accepted event, so
  wrap-around at `2 ^ 64` is unreachable in any execution and is not modelled.
* `scroll_distance : i64` is an `Int` kept in two's-complement range by the
  explicit `wrap64`.  The claims probe `i64` overflow directly (via
  `delta.abs()` at `i64::MIN`), so this field uses the release-profile
  (wrapping) semantics of Rust integer overflow.
* `f64` distances are modelled as `ℚ` (exact arithmetic stand-in for finite
  floats; the claims about them are structural, not about rounding).
* The `RwLock`/`Arc` plumbing of `StatsManager` is elided: every claim is
  about the sequential functional behaviour, and the lock-poisoning branches
  (`if let Ok(..)`) are the out-of-model failure paths.
-/

namespace RustFinger

/-- One sample of the clocks taken inside a `record_*` call:
`now` is `Instant::now()` in milliseconds, `hour` is
`Local::now().hour() as u8`, and `date` is `Local::now().format("%Y-%m-%d")`. -/
structure Clock where
  now : Nat
  hour : Nat
  date : String
  deriving Repr, DecidableEq

/-- Per-day sub-record, from `struct DailyStats` in `src/stats.rs`. -/
structure DailyStats where
  total_keys : Nat
  total_clicks : Nat
  total_distance : ℚ
  deriving Repr, DecidableEq

/-- Model of `DailyStats::default()`. -/
def DailyStats.default : DailyStats :=
  { total_keys := 0, total_clicks := 0, total_distance := 0 }

/-- The metric aggregate, from `struct Stats` in `src/stats.rs`.
`session_start` and `recent_keys` carry `#[serde(skip)]` in the source. -/
structure Stats where
  key_counts : List (String × Nat)
  mouse_clicks : List (String × Nat)
  mouse_distance : ℚ
  scroll_distance : Int
  hourly_key_counts : List (Nat × Nat)
  hourly_click_counts : List (Nat × Nat)
  daily_stats : List (String × DailyStats)
  session_start : Option Nat
  recent_keys : List Nat
  deriving Repr, DecidableEq

/-- Model of `map.entry(k).or_insert(d)` followed by replacing the entry's
value `v` with `f v`: the first binding of `k` is rewritten in place, and a
fresh binding `(k, f d)` is appended when `k` is absent. -/
def entryUpdate {α β : Type} [DecidableEq α] (m : List (α × β)) (k : α) (d : β)
    (f : β → β) : List (α × β) :=
  match m with
  | [] => [(k, f d)]
  | (k0, v) :: rest =>
      if k0 = k then (k0, f v) :: rest else (k0, v) :: entryUpdate rest k d f

/-- Model of `map.get(&k)` defaulted: the value of the first binding of `k`,
or `d` when `k` is absent. -/
def lookupD {α β : Type} [DecidableEq α] (m : List (α × β)) (k : α) (d : β) : β :=
  match m with
  | [] => d
  | (k0, v) :: rest => if k0 = k then v else lookupD rest k d

/-- Model of `*map.entry(k).or_insert(0) += 1`. -/
def bump {α : Type} [DecidableEq α] (m : List (α × Nat)) (k : α) : List (α × Nat) :=
  entryUpdate m k 0 (fun v => v + 1)

/-- Model of `Stats::new()`: everything `Default` except
`session_start = Some(Instant::now())`. -/
def Stats.new (now : Nat) : Stats :=
  { key_counts := []
    mouse_clicks := []
    mouse_distance := 0
    scroll_distance := 0
    hourly_key_counts := []
    hourly_click_counts := []
    daily_stats := []
    session_start := some now
    recent_keys := [] }

/-- Model of `Stats::record_key` (`src/stats.rs` lines 56–75): bump the key
count, the current hour's count and today's `total_keys`, then prune
`recent_keys` to the trailing 60 seconds and push `now`. -/
def Stats.record_key (s : Stats) (key_name : String) (c : Clock) : Stats :=
  { s with
    key_counts := bump s.key_counts key_name
    hourly_key_counts := bump s.hourly_key_counts c.hour
    daily_stats := entryUpdate s.daily_stats c.date DailyStats.default
      (fun d => { d with total_keys := d.total_keys + 1 })
    recent_keys :=
      (s.recent_keys.filter (fun t => decide (c.now - t < 60000))) ++ [c.now] }

/-- Model of `Stats::record_click` (`src/stats.rs` lines 78–89). -/
def Stats.record_click (s : Stats) (button : String) (c : Clock) : Stats :=
  { s with
    mouse_clicks := bump s.mouse_clicks button
    hourly_click_counts := bump s.hourly_click_counts c.hour
    daily_stats := entryUpdate s.daily_stats c.date DailyStats.default
      (fun d => { d with total_clicks := d.total_clicks + 1 }) }

/-- Model of `Stats::record_movement` (`src/stats.rs` lines 92–100). -/
def Stats.record_movement (s : Stats) (distance : ℚ) (c : Clock) : Stats :=
  { s with
    mouse_distance := s.mouse_distance + distance
    daily_stats := entryUpdate s.daily_stats c.date DailyStats.default
      (fun d => { d with total_distance := d.total_distance + distance }) }

/-- Two's-complement reduction of an `Int` into the `i64` range
`[-2 ^ 63, 2 ^ 63)`. -/
def wrap64 (x : Int) : Int :=
  (x + 2 ^ 63) % 2 ^ 64 - 2 ^ 63

/-- Model of `i64::abs` under the release profile: the mathematical absolute
value reduced into `i64` range, so `i64_abs (-2 ^ 63) = -2 ^ 63`. -/
def i64_abs (x : Int) : Int :=
  wrap64 (if x < 0 then -x else x)

/-- Model of `Stats::record_scroll` (`src/stats.rs` lines 103–105):
`self.scroll_distance += delta.abs()` on `i64`, wrapping on overflow. -/
def Stats.record_scroll (s : Stats) (delta : Int) : Stats :=
  { s with scroll_distance := wrap64 (s.scroll_distance + i64_abs delta) }

/-- The dedup-relevant state of `StatsManager` (`src/stats.rs` lines 166–175):
the aggregate plus the two per-channel `(label, Instant)` cells.  The path,
liveness flag and error slot play no role in the claims. -/
structure StatsManager where
  stats : Stats
  last_key : Option (String × Nat)
  last_click : Option (String × Nat)
  deriving Repr, DecidableEq

/-- The dedup guard of `StatsManager::record_key`/`record_click`: a candidate
is accepted unless the remembered cell holds the identical label with an
accepted timestamp less than 50 ms old. -/
def dedupAccept (last : Option (String × Nat)) (name : String) (now : Nat) : Bool :=
  match last with
  | some (last_name, last_time) =>
      !(last_name == name && decide (now - last_time < 50))
  | none => true

/-- Model of `StatsManager::record_key` (`src/stats.rs` lines 236–251): on a
suppressed candidate the call returns before touching either the dedup cell or
the aggregate; on acceptance the cell is set to the candidate and the
aggregate mutated. -/
def StatsManager.record_key (m : StatsManager) (key_name : String) (c : Clock) :
    StatsManager :=
  if dedupAccept m.last_key key_name c.now then
    { m with
      last_key := some (key_name, c.now)
      stats := m.stats.record_key key_name c }
  else m

/-- Model of `StatsManager::record_click` (`src/stats.rs` lines 254–269). -/
def StatsManager.record_click (m : StatsManager) (button : String) (c : Clock) :
    StatsManager :=
  if dedupAccept m.last_click button c.now then
    { m with
      last_click := some (button, c.now)
      stats := m.stats.record_click button c }
  else m

/-- Model of `StatsManager::record_movement` (no dedup). -/
def StatsManager.record_movement (m : StatsManager) (distance : ℚ) (c : Clock) :
    StatsManager :=
  { m with stats := m.stats.record_movement distance c }

/-- Model of `StatsManager::record_scroll` (no dedup). -/
def StatsManager.record_scroll (m : StatsManager) (delta : Int) : StatsManager :=
  { m with stats := m.stats.record_scroll delta }

/-!
Persistence codec.  `serde_json` is modelled by a JSON value type plus an
encoder/decoder pair that mirrors what `#[derive(Serialize, Deserialize)]`
generates for `Stats` and `DailyStats`:

* fields are serialized in declaration order, `#[serde(skip)]` fields are
  omitted and come back as `Default::default()`;
* the derived deserializer ignores unknown object keys and errors on a
  missing field (no `#[serde(default)]` is present in the source);
* `HashMap<u8, u64>` keys are serialized as decimal strings (JSON object keys
  are strings) and parsed back, erroring above `u8` range;
* JSON numbers are `ℚ`; `u64`/`i64` decoding checks integrality and range as
  `serde_json` does.

Reading the file (`fs::read_to_string` plus text-level JSON parsing) is
abstracted to an `Option Json`: `none` stands for an absent, unreadable or
textually unparsable (for example zero-byte) file, `some j` for a file whose
text parsed to the JSON value `j`.
-/

/-- JSON values, the target of the persistence codec. -/
inductive Json where
  | null : Json
  | bool (b : Bool) : Json
  | num (q : ℚ) : Json
  | str (s : String) : Json
  | arr (xs : List Json) : Json
  | obj (fields : List (String × Json)) : Json

/-- Decimal digits of `n`, most significant first. -/
def natDigits (n : Nat) : List Nat :=
  if n < 10 then [n] else natDigits (n / 10) ++ [n % 10]
termination_by n
decreasing_by exact Nat.div_lt_self (by omega) (by omega)

/-- The character of one decimal digit. -/
def digitChar (d : Nat) : Char := Char.ofNat (48 + d)

/-- Decimal rendering of a `Nat`, as the `Display` impl of Rust integers
produces for `HashMap<u8, _>` keys. -/
def printNat (n : Nat) : String := String.mk ((natDigits n).map digitChar)

/-- The numeric value of one decimal character, if it is one. -/
def charDigit (c : Char) : Option Nat :=
  if 48 ≤ c.toNat ∧ c.toNat ≤ 57 then some (c.toNat - 48) else none

/-- Value of a big-endian digit list. -/
def digitsVal (l : List Nat) : Nat :=
  l.foldl (fun acc d => acc * 10 + d) 0

/-- Option-valued traversal of a list, failing as soon as `f` does. -/
def traverseOption {α β : Type} (f : α → Option β) : List α → Option (List β)
  | [] => some []
  | a :: rest =>
      match f a, traverseOption f rest with
      | some b, some bs => some (b :: bs)
      | _, _ => none

/-- Decimal parsing of a map key, as `u8::from_str` does on the digit-only
strings the encoder emits. -/
def parseNat (s : String) : Option Nat :=
  if s.data = [] then none
  else (traverseOption charDigit s.data).map digitsVal

/-- Sequencing of fallible decoding steps (`Except` bind, spelled out). -/
def andThenE {α β : Type} (x : Except String α) (f : α → Except String β) :
    Except String β :=
  match x with
  | .ok a => f a
  | .error e => .error e

/-- Except-valued traversal of a list, failing as soon as `f` does. -/
def traverseE {α β : Type} (f : α → Except String β) :
    List α → Except String (List β)
  | [] => .ok []
  | a :: rest =>
      andThenE (f a) (fun b =>
        andThenE (traverseE f rest) (fun bs => .ok (b :: bs)))

/-- Encoding of a `u64` field. -/
def encodeU64 (n : Nat) : Json := .num (n : ℚ)

/-- Encoding of an `i64` field. -/
def encodeI64 (z : Int) : Json := .num (z : ℚ)

/-- Encoding of an `f64` field (finite floats modelled as `ℚ`). -/
def encodeF64 (q : ℚ) : Json := .num q

/-- Encoding of a `HashMap<String, u64>`. -/
def encodeStrMap (m : List (String × Nat)) : Json :=
  .obj (m.map (fun p => (p.1, encodeU64 p.2)))

/-- Encoding of a `HashMap<u8, u64>`: keys become decimal strings. -/
def encodeHourMap (m : List (Nat × Nat)) : Json :=
  .obj (m.map (fun p => (printNat p.1, encodeU64 p.2)))

/-- Encoding of a `DailyStats` value, fields in declaration order. -/
def encodeDaily (d : DailyStats) : Json :=
  .obj [("total_keys", encodeU64 d.total_keys),
        ("total_clicks", encodeU64 d.total_clicks),
        ("total_distance", encodeF64 d.total_distance)]

/-- The serialized fields of `Stats`, in declaration order, with the two
`#[serde(skip)]` fields omitted. -/
def encodeStatsFields (s : Stats) : List (String × Json) :=
  [("key_counts", encodeStrMap s.key_counts),
   ("mouse_clicks", encodeStrMap s.mouse_clicks),
   ("mouse_distance", encodeF64 s.mouse_distance),
   ("scroll_distance", encodeI64 s.scroll_distance),
   ("hourly_key_counts", encodeHourMap s.hourly_key_counts),
   ("hourly_click_counts", encodeHourMap s.hourly_click_counts),
   ("daily_stats", .obj (s.daily_stats.map (fun p => (p.1, encodeDaily p.2))))]

/-- Model of `serde_json::to_string_pretty(&stats)` as a JSON value. -/
def encodeStats (s : Stats) : Json := .obj (encodeStatsFields s)

/-- Fetch a required field of a JSON object; a missing field is a hard
deserialization error (the source derives `Deserialize` with no
`#[serde(default)]`). -/
def getField (fields : List (String × Json)) (name : String) :
    Except String Json :=
  match fields with
  | [] => .error ("missing field " ++ name)
  | (k, v) :: rest => if k = name then .ok v else getField rest name

/-- Decoding of a `u64` field: an integral JSON number in `u64` range. -/
def decodeU64 : Json → Except String Nat
  | .num q =>
      if q.den = 1 ∧ 0 ≤ q.num ∧ q.num < 2 ^ 64 then .ok q.num.toNat
      else .error "invalid u64"
  | _ => .error "invalid u64"

/-- Decoding of an `i64` field: an integral JSON number in `i64` range. -/
def decodeI64 : Json → Except String Int
  | .num q =>
      if q.den = 1 ∧ -2 ^ 63 ≤ q.num ∧ q.num < 2 ^ 63 then .ok q.num
      else .error "invalid i64"
  | _ => .error "invalid i64"

/-- Decoding of an `f64` field (any JSON number). -/
def decodeF64 : Json → Except String ℚ
  | .num q => .ok q
  | _ => .error "invalid f64"

/-- Decoding of a `HashMap<String, u64>`. -/
def decodeStrMap : Json → Except String (List (String × Nat))
  | .obj fields =>
      traverseE (fun p => andThenE (decodeU64 p.2) (fun n => .ok (p.1, n))) fields
  | _ => .error "expected map"

/-- Decoding of one `u8` map key from its decimal string. -/
def decodeHourKey (k : String) : Except String Nat :=
  match parseNat k with
  | some n => if n < 256 then .ok n else .error "u8 out of range"
  | none => .error "invalid u8 key"

/-- Decoding of a `HashMap<u8, u64>`. -/
def decodeHourMap : Json → Except String (List (Nat × Nat))
  | .obj fields =>
      traverseE (fun p =>
        andThenE (decodeHourKey p.1) (fun h =>
          andThenE (decodeU64 p.2) (fun n => .ok (h, n)))) fields
  | _ => .error "expected map"

/-- Decoding of a `DailyStats` value; each of its three fields is required. -/
def decodeDaily : Json → Except String DailyStats
  | .obj fields =>
      andThenE (getField fields "total_keys") (fun jk =>
      andThenE (decodeU64 jk) (fun tk =>
      andThenE (getField fields "total_clicks") (fun jc =>
      andThenE (decodeU64 jc) (fun tc =>
      andThenE (getField fields "total_distance") (fun jd =>
      andThenE (decodeF64 jd) (fun td =>
        .ok { total_keys := tk, total_clicks := tc, total_distance := td }))))))
  | _ => .error "expected object"

/-- Decoding of a `HashMap<String, DailyStats>`. -/
def decodeDailyMap : Json → Except String (List (String × DailyStats))
  | .obj fields =>
      traverseE (fun p =>
        andThenE (decodeDaily p.2) (fun d => .ok (p.1, d))) fields
  | _ => .error "expected map"

/-- The derived `Stats` deserializer on an object's fields: every persisted
field is required, unknown keys are ignored (by `getField` lookup), and the
two `#[serde(skip)]` fields come back as their defaults (`None` and `[]`). -/
def decodeStatsObj (fields : List (String × Json)) : Except String Stats :=
  andThenE (getField fields "key_counts") (fun j1 =>
  andThenE (decodeStrMap j1) (fun kc =>
  andThenE (getField fields "mouse_clicks") (fun j2 =>
  andThenE (decodeStrMap j2) (fun mc =>
  andThenE (getField fields "mouse_distance") (fun j3 =>
  andThenE (decodeF64 j3) (fun md =>
  andThenE (getField fields "scroll_distance") (fun j4 =>
  andThenE (decodeI64 j4) (fun sd =>
  andThenE (getField fields "hourly_key_counts") (fun j5 =>
  andThenE (decodeHourMap j5) (fun hk =>
  andThenE (getField fields "hourly_click_counts") (fun j6 =>
  andThenE (decodeHourMap j6) (fun hc =>
  andThenE (getField fields "daily_stats") (fun j7 =>
  andThenE (decodeDailyMap j7) (fun ds =>
    .ok { key_counts := kc
          mouse_clicks := mc
          mouse_distance := md
          scroll_distance := sd
          hourly_key_counts := hk
          hourly_click_counts := hc
          daily_stats := ds
          session_start := none
          recent_keys := [] }))))))))))))))

/-- Model of `serde_json::from_str::<Stats>` on an already-parsed JSON
value. -/
def decodeStats : Json → Except String Stats
  | .obj fields => decodeStatsObj fields
  | _ => .error "expected object"

/-- Model of `StatsManager::load_from_file` (`src/stats.rs` lines 220–225):
read and parse the file, then overwrite `session_start` with a fresh now.
`content = none` models a file that is absent, unreadable or not JSON text
(for example zero-byte). -/
def load_from_file (content : Option Json) (now : Nat) : Except String Stats :=
  match content with
  | none => .error "read or parse failure"
  | some j => andThenE (decodeStats j) (fun s =>
      .ok { s with session_start := some now })

/-- Model of the load part of `StatsManager::new` (`src/stats.rs` lines
178–200): `load_from_file(..).unwrap_or_else(|_| Stats::new())`, plus fresh
dedup cells.  Total by construction: no load outcome is fatal. -/
def StatsManager.new (content : Option Json) (now : Nat) : StatsManager :=
  { stats :=
      match load_from_file content now with
      | .ok s => s
      | .error _ => Stats.new now
    last_key := none
    last_click := none }

/-- Model of `StatsManager::save` (`src/stats.rs` lines 228–233): the JSON
value whose text is written to disk. -/
def StatsManager.save (m : StatsManager) : Json := encodeStats m.stats

/-! Derived notions used to state the claims. -/

/-- The representation invariants the Rust field types impose on the model:
`u64` counters below `2 ^ 64`, `u8` hour keys below `256`, and
`scroll_distance` in `i64` range.  Every value of the Rust `Stats` type
satisfies these by construction. -/
def Stats.WF (s : Stats) : Prop :=
  (∀ p ∈ s.key_counts, p.2 < 2 ^ 64) ∧
  (∀ p ∈ s.mouse_clicks, p.2 < 2 ^ 64) ∧
  (-2 ^ 63 ≤ s.scroll_distance ∧ s.scroll_distance < 2 ^ 63) ∧
  (∀ p ∈ s.hourly_key_counts, p.1 < 256 ∧ p.2 < 2 ^ 64) ∧
  (∀ p ∈ s.hourly_click_counts, p.1 < 256 ∧ p.2 < 2 ^ 64) ∧
  (∀ p ∈ s.daily_stats, p.2.total_keys < 2 ^ 64 ∧ p.2.total_clicks < 2 ^ 64)

/-- One record operation at the aggregate boundary, together with the clock
sample at which the event arrived. -/
inductive Op where
  | key (label : String) (c : Clock)
  | click (button : String) (c : Clock)
  | move (distance : ℚ) (c : Clock)
  | scroll (delta : Int) (c : Clock)
  deriving Repr, DecidableEq

/-- Aggregate-level application of one operation (the mutation the store
invokes under the write lock).  `Stats::record_scroll` reads no clock, so the
scroll case ignores the sample. -/
def Stats.apply (s : Stats) : Op → Stats
  | .key l c => s.record_key l c
  | .click b c => s.record_click b c
  | .move d c => s.record_movement d c
  | .scroll delta _ => s.record_scroll delta

/-- Replay of a list of operations on an aggregate. -/
def runOps (s : Stats) (ops : List Op) : Stats := ops.foldl Stats.apply s

/-- The local calendar date at which an operation arrived. -/
def Op.date : Op → String
  | .key _ c => c.date
  | .click _ c => c.date
  | .move _ c => c.date
  | .scroll _ c => c.date

/-- Whether the operation's source-level mutation writes `daily_stats`:
`record_key`, `record_click` and `record_movement` do, `record_scroll` does
not (`src/stats.rs` lines 103–105 touch only `scroll_distance`). -/
def Op.touchesDaily : Op → Bool
  | .key _ _ => true
  | .click _ _ => true
  | .move _ _ => true
  | .scroll _ _ => false

/-- Manager-level replay of a list of `record_key` calls. -/
def runKeys (m : StatsManager) : List (String × Clock) → StatsManager
  | [] => m
  | (l, c) :: rest => runKeys (m.record_key l c) rest

/-- The manager at process start when no durable file is readable. -/
def freshManager : StatsManager := StatsManager.new none 0

/-- Aggregate-level replay of a list of `record_scroll` calls. -/
def runScrolls (s : Stats) (ds : List Int) : Stats :=
  ds.foldl Stats.record_scroll s

/-- The sum of the mathematical absolute values of a list of scroll deltas. -/
def sumAbs (ds : List Int) : Nat := (ds.map Int.natAbs).sum

/-- The list of dates present in `daily_stats`. -/
def dailyDates (s : Stats) : List String := s.daily_stats.map Prod.fst

/-- Pointwise order on every count field of the aggregate, used to state that
no operation decrements any counter. -/
def Stats.le (s t : Stats) : Prop :=
  (∀ k, lookupD s.key_counts k 0 ≤ lookupD t.key_counts k 0) ∧
  (∀ k, lookupD s.mouse_clicks k 0 ≤ lookupD t.mouse_clicks k 0) ∧
  s.mouse_distance ≤ t.mouse_distance ∧
  s.scroll_distance ≤ t.scroll_distance ∧
  (∀ h, lookupD s.hourly_key_counts h 0 ≤ lookupD t.hourly_key_counts h 0) ∧
  (∀ h, lookupD s.hourly_click_counts h 0 ≤ lookupD t.hourly_click_counts h 0) ∧
  (∀ d, (lookupD s.daily_stats d DailyStats.default).total_keys
          ≤ (lookupD t.daily_stats d DailyStats.default).total_keys
      ∧ (lookupD s.daily_stats d DailyStats.default).total_clicks
          ≤ (lookupD t.daily_stats d DailyStats.default).total_clicks
      ∧ (lookupD s.daily_stats d DailyStats.default).total_distance
          ≤ (lookupD t.daily_stats d DailyStats.default).total_distance)

/-- A concrete populated aggregate, used to evaluate the round-trip laws on a
non-trivial value. -/
def sampleStats : Stats :=
  { key_counts := [("a", 2), ("Enter", 9)]
    mouse_clicks := [("Left", 3)]
    mouse_distance := 5 / 2
    scroll_distance := -4
    hourly_key_counts := [(13, 7)]
    hourly_click_counts := [(9, 1)]
    daily_stats := [("2024-01-02", ⟨1, 2, 3⟩)]
    session_start := some 5
    recent_keys := [1, 2] }

/-- A manager owning `sampleStats`. -/
def sampleManager : StatsManager :=
  { stats := sampleStats, last_key := none, last_click := none }

/-! Helper lemmas about the association-list model of `HashMap`. -/

theorem lookupD_entryUpdate {α β : Type} [DecidableEq α] (m : List (α × β))
    (k j : α) (d d0 : β) (f : β → β) :
    lookupD (entryUpdate m k d f) j d0 =
      if j = k then f (lookupD m k d) else lookupD m j d0 := by
  induction m with
  | nil =>
      by_cases h : j = k
      · subst h; simp [entryUpdate, lookupD]
      · simp [entryUpdate, lookupD, h, Ne.symm h]
  | cons p rest ih =>
      obtain ⟨k0, v⟩ := p
      by_cases hk : k0 = k
      · subst hk
        by_cases hj : k0 = j
        · subst hj; simp [entryUpdate, lookupD]
        · simp [entryUpdate, lookupD, hj, Ne.symm hj]
      · by_cases hj : k0 = j
        · subst hj
          simp [entryUpdate, lookupD, hk, Ne.symm hk]
        · simp [entryUpdate, lookupD, hk, hj, ih]

theorem mem_fst_entryUpdate {α β : Type} [DecidableEq α] (m : List (α × β))
    (k j : α) (d : β) (f : β → β) :
    j ∈ (entryUpdate m k d f).map Prod.fst ↔ j ∈ m.map Prod.fst ∨ j = k := by
  induction m with
  | nil => simp [entryUpdate, eq_comm]
  | cons p rest ih =>
      obtain ⟨k0, v⟩ := p
      by_cases hk : k0 = k
      · subst hk
        simp [entryUpdate]
        tauto
      · simp [entryUpdate, hk, ih]
        tauto

/-! Helper lemmas about decimal printing and parsing of map keys. -/

theorem natDigits_ne_nil (n : Nat) : natDigits n ≠ [] := by
  rw [natDigits]
  split <;> simp

theorem natDigits_lt_ten (n : Nat) : ∀ d ∈ natDigits n, d < 10 := by
  induction n using Nat.strong_induction_on with
  | _ n ih =>
    by_cases h : n < 10
    · rw [natDigits, if_pos h]
      intro d hd
      simp at hd
      omega
    · rw [natDigits, if_neg h]
      intro d hd
      rcases List.mem_append.mp hd with h1 | h1
      · exact ih (n / 10) (Nat.div_lt_self (by omega) (by omega)) d h1
      · simp at h1
        omega

theorem foldl_natDigits (n : Nat) :
    ∀ acc, (natDigits n).foldl (fun a d => a * 10 + d) acc
      = acc * 10 ^ (natDigits n).length + n := by
  induction n using Nat.strong_induction_on with
  | _ n ih =>
    intro acc
    by_cases h : n < 10
    · rw [natDigits, if_pos h]
      simp
    · rw [natDigits, if_neg h]
      rw [List.foldl_append, List.length_append,
        ih (n / 10) (Nat.div_lt_self (by omega) (by omega)) acc]
      simp only [List.foldl_cons, List.foldl_nil, List.length_cons,
        List.length_nil, Nat.zero_add, pow_succ]
      have hdm : n / 10 * 10 + n % 10 = n := by omega
      calc (acc * 10 ^ (natDigits (n / 10)).length + n / 10) * 10 + n % 10
          = acc * (10 ^ (natDigits (n / 10)).length * 10)
            + (n / 10 * 10 + n % 10) := by ring
        _ = acc * (10 ^ (natDigits (n / 10)).length * 10) + n := by rw [hdm]

theorem string_mk_data (l : List Char) : (String.mk l).data = l := rfl

theorem charDigit_digitChar : ∀ d, d < 10 → charDigit (digitChar d) = some d := by
  decide

theorem traverseOption_digits (l : List Nat) (h : ∀ d ∈ l, d < 10) :
    traverseOption charDigit (l.map digitChar) = some l := by
  induction l with
  | nil => rfl
  | cons d rest ih =>
      have h1 := charDigit_digitChar d (h d (by simp))
      have h2 := ih (fun x hx => h x (by simp [hx]))
      simp [traverseOption, h1, h2]

theorem parseNat_printNat (n : Nat) : parseNat (printNat n) = some n := by
  have hne : (natDigits n).map digitChar ≠ [] := by
    intro hcontra
    exact natDigits_ne_nil n (List.map_eq_nil_iff.mp hcontra)
  have htrav := traverseOption_digits (natDigits n) (natDigits_lt_ten n)
  have hval : digitsVal (natDigits n) = n := by
    unfold digitsVal
    rw [foldl_natDigits n 0]
    simp
  simp [parseNat, printNat, string_mk_data, hne, htrav, hval]

/-! Round-trip lemmas for the persistence codec. -/

theorem andThenE_ok {α β : Type} (a : α) (f : α → Except String β) :
    andThenE (.ok a) f = f a := rfl

theorem andThenE_error {α β : Type} (e : String) (f : α → Except String β) :
    andThenE (.error e) f = .error e := rfl

theorem decodeU64_encodeU64 (n : Nat) (h : n < 2 ^ 64) :
    decodeU64 (encodeU64 n) = .ok n := by
  have h1 : ((n : ℚ)).den = 1 := Rat.den_natCast n
  have h2 : ((n : ℚ)).num = (n : Int) := Rat.num_natCast n
  simp only [encodeU64, decodeU64, h1, h2]
  rw [if_pos (by refine ⟨by trivial, by omega, ?_⟩; exact_mod_cast h)]
  simp

theorem decodeI64_encodeI64 (z : Int) (hlo : -2 ^ 63 ≤ z) (hhi : z < 2 ^ 63) :
    decodeI64 (encodeI64 z) = .ok z := by
  have h1 : ((z : ℚ)).den = 1 := Rat.den_intCast z
  have h2 : ((z : ℚ)).num = z := Rat.num_intCast z
  simp only [encodeI64, decodeI64, h1, h2]
  rw [if_pos (by exact ⟨by trivial, hlo, hhi⟩)]

theorem decodeF64_encodeF64 (q : ℚ) : decodeF64 (encodeF64 q) = .ok q := rfl

theorem decodeStrMap_encodeStrMap (m : List (String × Nat))
    (h : ∀ p ∈ m, p.2 < 2 ^ 64) :
    decodeStrMap (encodeStrMap m) = .ok m := by
  induction m with
  | nil => rfl
  | cons p rest ih =>
      obtain ⟨k, v⟩ := p
      have h1 := decodeU64_encodeU64 v (h (k, v) (by simp))
      have h2 := ih (fun q hq => h q (by simp [hq]))
      simp only [encodeStrMap, decodeStrMap, List.map_cons] at h2 ⊢
      simp only [traverseE, h2]
      rw [h1]
      simp only [andThenE_ok]

theorem decodeHourKey_printNat (n : Nat) (h : n < 256) :
    decodeHourKey (printNat n) = .ok n := by
  simp [decodeHourKey, parseNat_printNat, h]

theorem decodeHourMap_encodeHourMap (m : List (Nat × Nat))
    (h : ∀ p ∈ m, p.1 < 256 ∧ p.2 < 2 ^ 64) :
    decodeHourMap (encodeHourMap m) = .ok m := by
  induction m with
  | nil => rfl
  | cons p rest ih =>
      obtain ⟨k, v⟩ := p
      have hk := decodeHourKey_printNat k (h (k, v) (by simp)).1
      have hv := decodeU64_encodeU64 v (h (k, v) (by simp)).2
      have h2 := ih (fun q hq => h q (by simp [hq]))
      simp only [encodeHourMap, decodeHourMap, List.map_cons] at h2 ⊢
      simp only [traverseE, h2]
      rw [hk, hv]
      simp only [andThenE_ok]

theorem decodeDaily_encodeDaily (d : DailyStats)
    (hk : d.total_keys < 2 ^ 64) (hc : d.total_clicks < 2 ^ 64) :
    decodeDaily (encodeDaily d) = .ok d := by
  have h1 := decodeU64_encodeU64 d.total_keys hk
  have h2 := decodeU64_encodeU64 d.total_clicks hc
  have gk : getField [("total_keys", encodeU64 d.total_keys),
      ("total_clicks", encodeU64 d.total_clicks),
      ("total_distance", encodeF64 d.total_distance)] "total_keys"
      = .ok (encodeU64 d.total_keys) := rfl
  have gc : getField [("total_keys", encodeU64 d.total_keys),
      ("total_clicks", encodeU64 d.total_clicks),
      ("total_distance", encodeF64 d.total_distance)] "total_clicks"
      = .ok (encodeU64 d.total_clicks) := rfl
  have gd : getField [("total_keys", encodeU64 d.total_keys),
      ("total_clicks", encodeU64 d.total_clicks),
      ("total_distance", encodeF64 d.total_distance)] "total_distance"
      = .ok (encodeF64 d.total_distance) := rfl
  simp only [encodeDaily, decodeDaily]
  rw [gk, gc, gd, andThenE_ok, h1, andThenE_ok, andThenE_ok, h2, andThenE_ok,
    andThenE_ok, decodeF64_encodeF64, andThenE_ok]

theorem decodeDailyMap_encode (m : List (String × DailyStats))
    (h : ∀ p ∈ m, p.2.total_keys < 2 ^ 64 ∧ p.2.total_clicks < 2 ^ 64) :
    decodeDailyMap (.obj (m.map (fun p => (p.1, encodeDaily p.2)))) = .ok m := by
  induction m with
  | nil => rfl
  | cons p rest ih =>
      obtain ⟨k, v⟩ := p
      have h1 := decodeDaily_encodeDaily v (h (k, v) (by simp)).1
        (h (k, v) (by simp)).2
      have h2 := ih (fun q hq => h q (by simp [hq]))
      simp only [decodeDailyMap, List.map_cons] at h2 ⊢
      simp only [traverseE, h2]
      rw [h1]
      simp only [andThenE_ok]

theorem decodeStatsObj_encodeStatsFields (s : Stats) (h : s.WF) :
    decodeStatsObj (encodeStatsFields s) =
      .ok { s with session_start := none, recent_keys := [] } := by
  obtain ⟨h1, h2, h3, h4, h5, h6⟩ := h
  have e1 := decodeStrMap_encodeStrMap s.key_counts h1
  have e2 := decodeStrMap_encodeStrMap s.mouse_clicks h2
  have e4 := decodeI64_encodeI64 s.scroll_distance h3.1 h3.2
  have e5 := decodeHourMap_encodeHourMap s.hourly_key_counts h4
  have e6 := decodeHourMap_encodeHourMap s.hourly_click_counts h5
  have e7 := decodeDailyMap_encode s.daily_stats h6
  have g1 : getField (encodeStatsFields s) "key_counts"
      = .ok (encodeStrMap s.key_counts) := rfl
  have g2 : getField (encodeStatsFields s) "mouse_clicks"
      = .ok (encodeStrMap s.mouse_clicks) := rfl
  have g3 : getField (encodeStatsFields s) "mouse_distance"
      = .ok (encodeF64 s.mouse_distance) := rfl
  have g4 : getField (encodeStatsFields s) "scroll_distance"
      = .ok (encodeI64 s.scroll_distance) := rfl
  have g5 : getField (encodeStatsFields s) "hourly_key_counts"
      = .ok (encodeHourMap s.hourly_key_counts) := rfl
  have g6 : getField (encodeStatsFields s) "hourly_click_counts"
      = .ok (encodeHourMap s.hourly_click_counts) := rfl
  have g7 : getField (encodeStatsFields s) "daily_stats"
      = .ok (.obj (s.daily_stats.map (fun p => (p.1, encodeDaily p.2)))) := rfl
  simp only [decodeStatsObj]
  rw [g1, g2, g3, g4, g5, g6, g7]
  rw [andThenE_ok, e1, andThenE_ok]
  rw [andThenE_ok, e2, andThenE_ok]
  rw [andThenE_ok, decodeF64_encodeF64, andThenE_ok]
  rw [andThenE_ok, e4, andThenE_ok]
  rw [andThenE_ok, e5, andThenE_ok]
  rw [andThenE_ok, e6, andThenE_ok]
  rw [andThenE_ok, e7, andThenE_ok]

/-! Counting helper lemmas. -/

theorem lookupD_bump {α : Type} [DecidableEq α] (m : List (α × Nat)) (k j : α) :
    lookupD (bump m k) j 0 = lookupD m j 0 + if j = k then 1 else 0 := by
  rw [bump, lookupD_entryUpdate]
  by_cases h : j = k <;> simp [h]

/-- Claim C1: for two `record_key` calls with the identical label, the second
arriving less than 50 ms after the first (accepted) one is dropped whole — no
aggregate mutation and no dedup-state update — while a second call arriving
50 ms or later is counted as well and updates the dedup cell. -/
theorem c1_dedup_fifty_ms_window (m : StatsManager) (L : String) (c1 c2 : Clock)
    (hacc : dedupAccept m.last_key L c1.now = true) :
    lookupD (m.record_key L c1).stats.key_counts L 0
        = lookupD m.stats.key_counts L 0 + 1 ∧
    (c2.now - c1.now < 50 →
        (m.record_key L c1).record_key L c2 = m.record_key L c1) ∧
    (50 ≤ c2.now - c1.now →
        lookupD ((m.record_key L c1).record_key L c2).stats.key_counts L 0
          = lookupD m.stats.key_counts L 0 + 2 ∧
        ((m.record_key L c1).record_key L c2).last_key = some (L, c2.now)) := by
  have hm1 : m.record_key L c1 =
      { m with last_key := some (L, c1.now), stats := m.stats.record_key L c1 } := by
    rw [StatsManager.record_key, if_pos hacc]
  refine ⟨?_, ?_, ?_⟩
  · rw [hm1]
    simp only [Stats.record_key]
    rw [lookupD_bump]
    simp
  · intro h50
    have hrej : dedupAccept (some (L, c1.now)) L c2.now = false := by
      simp [dedupAccept, h50]
    rw [hm1, StatsManager.record_key]
    simp only [hrej]
    simp
  · intro h50
    have hacc2 : dedupAccept (some (L, c1.now)) L c2.now = true := by
      simp [dedupAccept]
      omega
    have hlk : (m.record_key L c1).last_key = some (L, c1.now) := by
      rw [hm1]
    have hm2 : (m.record_key L c1).record_key L c2 =
        { (m.record_key L c1) with
            last_key := some (L, c2.now)
            stats := (m.record_key L c1).stats.record_key L c2 } := by
      rw [StatsManager.record_key, hlk, if_pos hacc2]
    constructor
    · rw [hm2]
      simp only
      rw [hm1]
      simp only [Stats.record_key]
      rw [lookupD_bump, lookupD_bump]
      simp
    · rw [hm2]

/-- Witness for C1 at a fresh manager: the first call at 100 ms is accepted;
the second, 60 ms later, falls in the accepted branch. -/
theorem c1_dedup_fifty_ms_window_witness :
    lookupD ((freshManager.record_key "A" ⟨100, 1, "2024-01-01"⟩)).stats.key_counts
        "A" 0
      = lookupD freshManager.stats.key_counts "A" 0 + 1 ∧
    ((⟨160, 1, "2024-01-01"⟩ : Clock).now - (⟨100, 1, "2024-01-01"⟩ : Clock).now < 50 →
        (freshManager.record_key "A" ⟨100, 1, "2024-01-01"⟩).record_key "A"
            ⟨160, 1, "2024-01-01"⟩
          = freshManager.record_key "A" ⟨100, 1, "2024-01-01"⟩) ∧
    (50 ≤ (⟨160, 1, "2024-01-01"⟩ : Clock).now - (⟨100, 1, "2024-01-01"⟩ : Clock).now →
        lookupD ((freshManager.record_key "A" ⟨100, 1, "2024-01-01"⟩).record_key "A"
            ⟨160, 1, "2024-01-01"⟩).stats.key_counts "A" 0
          = lookupD freshManager.stats.key_counts "A" 0 + 2 ∧
        ((freshManager.record_key "A" ⟨100, 1, "2024-01-01"⟩).record_key "A"
            ⟨160, 1, "2024-01-01"⟩).last_key = some ("A", 160)) :=
  c1_dedup_fifty_ms_window freshManager "A" ⟨100, 1, "2024-01-01"⟩
    ⟨160, 1, "2024-01-01"⟩ (by decide)

theorem runKeys_distinct (calls : List (String × Clock)) :
    ∀ m : StatsManager,
      (calls.map Prod.fst).Nodup →
      (∀ n t, m.last_key = some (n, t) → n ∉ calls.map Prod.fst) →
      ∀ L, lookupD (runKeys m calls).stats.key_counts L 0
        = lookupD m.stats.key_counts L 0 + (calls.map Prod.fst).count L := by
  induction calls with
  | nil =>
      intro m _ _ L
      simp [runKeys]
  | cons p rest ih =>
      obtain ⟨l, c⟩ := p
      intro m hnd hlast L
      simp only [List.map_cons, List.nodup_cons] at hnd
      have hacc : dedupAccept m.last_key l c.now = true := by
        cases hm : m.last_key with
        | none => rfl
        | some nt =>
            obtain ⟨n, t⟩ := nt
            have hne : n ≠ l := by
              intro he
              exact hlast n t hm (by simp [he])
            simp [dedupAccept, hne]
      have hm1 : m.record_key l c =
          { m with last_key := some (l, c.now), stats := m.stats.record_key l c } := by
        rw [StatsManager.record_key, if_pos hacc]
      have hstep := ih (m.record_key l c) hnd.2 (by
        intro n t hsome
        rw [hm1] at hsome
        simp only at hsome
        injection hsome with h
        have hn : n = l := ((Prod.mk.injEq _ _ _ _).mp h).1.symm
        rw [hn]
        exact hnd.1) L
      rw [runKeys, hstep, hm1]
      simp only [Stats.record_key]
      rw [lookupD_bump]
      simp only [List.map_cons, List.count_cons]
      by_cases h : L = l
      · subst h
        simp only [if_pos rfl, beq_self_eq_true, if_true]
        omega
      · have hbeq : ¬((l == L) = true) := by simp [Ne.symm h]
        rw [if_neg h, if_neg hbeq]
        omega

/-- Claim C8: dedup is label-specific.  A `record_key` whose label differs
from the remembered most-recently-accepted label is never suppressed,
whatever the timing; and replaying any list of `record_key` calls with
pairwise distinct labels from a fresh manager gives each label exactly its
number of calls in `key_counts`. -/
theorem c8_label_specific_dedup (m : StatsManager) (L : String) (c : Clock)
    (hfree : ∀ t, m.last_key ≠ some (L, t))
    (calls : List (String × Clock)) (hnd : (calls.map Prod.fst).Nodup)
    (L2 : String) :
    lookupD (m.record_key L c).stats.key_counts L 0
        = lookupD m.stats.key_counts L 0 + 1 ∧
    lookupD (runKeys freshManager calls).stats.key_counts L2 0
        = (calls.map Prod.fst).count L2 := by
  constructor
  · have hacc : dedupAccept m.last_key L c.now = true := by
      cases hm : m.last_key with
      | none => rfl
      | some nt =>
          obtain ⟨n, t⟩ := nt
          have hne : n ≠ L := by
            intro he
            rw [he] at hm
            exact hfree t hm
          simp [dedupAccept, hne]
    rw [StatsManager.record_key, if_pos hacc]
    simp only [Stats.record_key]
    rw [lookupD_bump]
    simp
  · have h := runKeys_distinct calls freshManager hnd (by
      intro n t hsome
      simp [freshManager, StatsManager.new] at hsome) L2
    rw [h]
    have : lookupD freshManager.stats.key_counts L2 0 = 0 := rfl
    rw [this]
    omega

/-- Witness for C8: two distinct labels back to back, 1 ms apart, both
counted. -/
theorem c8_label_specific_dedup_witness :
    lookupD ((freshManager.record_key "B" ⟨5, 0, "2024-01-01"⟩).record_key "A"
        ⟨6, 0, "2024-01-01"⟩).stats.key_counts "A" 0
      = lookupD (freshManager.record_key "B" ⟨5, 0, "2024-01-01"⟩).stats.key_counts
          "A" 0 + 1 ∧
    lookupD (runKeys freshManager
        [("A", ⟨5, 0, "2024-01-01"⟩), ("B", ⟨6, 0, "2024-01-01"⟩)]).stats.key_counts
        "A" 0
      = ([("A", (⟨5, 0, "2024-01-01"⟩ : Clock)),
          ("B", ⟨6, 0, "2024-01-01"⟩)].map Prod.fst).count "A" :=
  c8_label_specific_dedup (freshManager.record_key "B" ⟨5, 0, "2024-01-01"⟩)
    "A" ⟨6, 0, "2024-01-01"⟩
    (by
      intro t h
      have e : (freshManager.record_key "B" ⟨5, 0, "2024-01-01"⟩).last_key
          = some ("B", 5) := rfl
      rw [e] at h
      injection h with h2
      injection h2 with ha hb
      exact absurd ha (by decide))
    [("A", ⟨5, 0, "2024-01-01"⟩), ("B", ⟨6, 0, "2024-01-01"⟩)] (by decide) "A"

/-! Arithmetic facts about the wrapped `i64` model of `scroll_distance`. -/

theorem wrap64_eq_self (x : Int) (h1 : -2 ^ 63 ≤ x) (h2 : x < 2 ^ 63) :
    wrap64 x = x := by
  rw [wrap64]
  omega

theorem i64_abs_eq (x : Int) (hlo : -2 ^ 63 < x) (hhi : x < 2 ^ 63) :
    i64_abs x = (x.natAbs : Int) := by
  rw [i64_abs, wrap64]
  by_cases h : x < 0
  · rw [if_pos h]
    omega
  · rw [if_neg h]
    omega

theorem record_scroll_value (s : Stats) (delta : Int)
    (hdlo : -2 ^ 63 < delta) (hdhi : delta < 2 ^ 63)
    (hslo : -2 ^ 63 ≤ s.scroll_distance)
    (hsum : s.scroll_distance + (delta.natAbs : Int) < 2 ^ 63) :
    (s.record_scroll delta).scroll_distance
      = s.scroll_distance + (delta.natAbs : Int) := by
  simp only [Stats.record_scroll]
  rw [i64_abs_eq delta hdlo hdhi]
  exact wrap64_eq_self _ (by omega) hsum

/-- Counterexample to claim C5 as stated: at `delta = i64::MIN`
(`-9223372036854775808 = -2 ^ 63`), `record_scroll` does not add `abs(delta)`
to `scroll_distance`: the absolute value is unrepresentable in `i64`, so under
the release-profile wrapping semantics the result is `-2 ^ 63`, not `2 ^ 63`
(with overflow checks enabled the Rust `i64::abs` would panic instead). -/
theorem c5_scroll_min_counterexample :
    ((Stats.new 0).record_scroll (-9223372036854775808)).scroll_distance
        = -9223372036854775808 ∧
    (((-9223372036854775808 : Int).natAbs : Int) = 9223372036854775808) ∧
    ((Stats.new 0).record_scroll (-9223372036854775808)).scroll_distance
        ≠ (Stats.new 0).scroll_distance
            + ((-9223372036854775808 : Int).natAbs : Int) := by
  refine ⟨by decide, by decide, by decide⟩

/-- Claim C5, amended: `record_scroll` is total (the model is a Lean
function, mirroring that the release build cannot panic), and for every
`delta` strictly above `i64::MIN`, with the accumulator staying in `i64`
range, it adds `abs(delta)` to `scroll_distance`.  At `delta = i64::MIN` the
call still completes but adds the wrapped value `-2 ^ 63` instead of
`abs(delta)`. -/
theorem c5_record_scroll_adds_abs (s : Stats) (delta : Int)
    (hdlo : -2 ^ 63 < delta) (hdhi : delta < 2 ^ 63)
    (hslo : -2 ^ 63 ≤ s.scroll_distance)
    (hsum : s.scroll_distance + (delta.natAbs : Int) < 2 ^ 63) :
    (s.record_scroll delta).scroll_distance
      = s.scroll_distance + (delta.natAbs : Int) :=
  record_scroll_value s delta hdlo hdhi hslo hsum

/-- Witness for amended C5 at `delta = -7` on a fresh aggregate. -/
theorem c5_record_scroll_adds_abs_witness :
    ((Stats.new 0).record_scroll (-7)).scroll_distance
      = (Stats.new 0).scroll_distance + (((-7 : Int).natAbs : Int)) :=
  c5_record_scroll_adds_abs (Stats.new 0) (-7) (by decide) (by decide)
    (by decide) (by decide)

/-- Counterexample to claim C4 as stated: the operation
`record_scroll(i64::MIN)` strictly decreases `scroll_distance`, from `0` to
`-2 ^ 63`, under the wrapping overflow semantics of the release profile. -/
theorem c4_scroll_min_decrements :
    ((Stats.new 0).record_scroll (-9223372036854775808)).scroll_distance
      < (Stats.new 0).scroll_distance := by
  decide

/-- Claim C4, amended: every single `record_key`, `record_click`,
`record_movement` (with `distance ≥ 0`) and `record_scroll` call leaves every
count field of the aggregate pointwise non-decreasing, provided the scroll
delta is strictly above `i64::MIN` and the scroll accumulator does not
overflow `i64`; without that proviso `record_scroll` can decrement
`scroll_distance` (see the counterexample). -/
theorem c4_record_ops_monotone (s : Stats) (label button : String) (c : Clock)
    (d : ℚ) (delta : Int)
    (hd : 0 ≤ d)
    (hdlo : -2 ^ 63 < delta) (hdhi : delta < 2 ^ 63)
    (hslo : -2 ^ 63 ≤ s.scroll_distance)
    (hsum : s.scroll_distance + (delta.natAbs : Int) < 2 ^ 63) :
    Stats.le s (s.record_key label c) ∧
    Stats.le s (s.record_click button c) ∧
    Stats.le s (s.record_movement d c) ∧
    Stats.le s (s.record_scroll delta) := by
  refine ⟨⟨?_, ?_, ?_, ?_, ?_, ?_, ?_⟩, ⟨?_, ?_, ?_, ?_, ?_, ?_, ?_⟩,
    ⟨?_, ?_, ?_, ?_, ?_, ?_, ?_⟩, ⟨?_, ?_, ?_, ?_, ?_, ?_, ?_⟩⟩
  · intro k
    simp only [Stats.record_key]
    rw [lookupD_bump]
    by_cases h : k = label <;> simp [h]
  · intro k
    simp [Stats.record_key]
  · simp [Stats.record_key]
  · simp [Stats.record_key]
  · intro h
    simp only [Stats.record_key]
    rw [lookupD_bump]
    by_cases hh : h = c.hour <;> simp [hh]
  · intro h
    simp [Stats.record_key]
  · intro dd
    simp only [Stats.record_key]
    rw [lookupD_entryUpdate]
    by_cases h : dd = c.date
    · subst h
      refine ⟨?_, ?_, ?_⟩ <;> simp
    · rw [if_neg h]
      exact ⟨le_refl _, le_refl _, le_refl _⟩
  · intro k
    simp [Stats.record_click]
  · intro k
    simp only [Stats.record_click]
    rw [lookupD_bump]
    by_cases h : k = button <;> simp [h]
  · simp [Stats.record_click]
  · simp [Stats.record_click]
  · intro h
    simp [Stats.record_click]
  · intro h
    simp only [Stats.record_click]
    rw [lookupD_bump]
    by_cases hh : h = c.hour <;> simp [hh]
  · intro dd
    simp only [Stats.record_click]
    rw [lookupD_entryUpdate]
    by_cases h : dd = c.date
    · subst h
      refine ⟨?_, ?_, ?_⟩ <;> simp
    · rw [if_neg h]
      exact ⟨le_refl _, le_refl _, le_refl _⟩
  · intro k
    simp [Stats.record_movement]
  · intro k
    simp [Stats.record_movement]
  · simp only [Stats.record_movement]
    linarith
  · simp [Stats.record_movement]
  · intro h
    simp [Stats.record_movement]
  · intro h
    simp [Stats.record_movement]
  · intro dd
    simp only [Stats.record_movement]
    rw [lookupD_entryUpdate]
    by_cases h : dd = c.date
    · subst h
      refine ⟨?_, ?_, ?_⟩ <;> simp
      linarith
    · rw [if_neg h]
      exact ⟨le_refl _, le_refl _, le_refl _⟩
  · intro k
    simp [Stats.record_scroll]
  · intro k
    simp [Stats.record_scroll]
  · simp [Stats.record_scroll]
  · rw [record_scroll_value s delta hdlo hdhi hslo hsum]
    omega
  · intro h
    simp [Stats.record_scroll]
  · intro h
    simp [Stats.record_scroll]
  · intro dd
    simp [Stats.record_scroll]

/-- Witness for amended C4 on a fresh aggregate, with distance `1` and scroll
delta `-5`. -/
theorem c4_record_ops_monotone_witness :
    Stats.le (Stats.new 0) ((Stats.new 0).record_key "A" ⟨7, 3, "2024-01-02"⟩) ∧
    Stats.le (Stats.new 0) ((Stats.new 0).record_click "Left" ⟨7, 3, "2024-01-02"⟩) ∧
    Stats.le (Stats.new 0) ((Stats.new 0).record_movement 1 ⟨7, 3, "2024-01-02"⟩) ∧
    Stats.le (Stats.new 0) ((Stats.new 0).record_scroll (-5)) :=
  c4_record_ops_monotone (Stats.new 0) "A" "Left" ⟨7, 3, "2024-01-02"⟩ 1 (-5)
    (by norm_num) (by decide) (by decide) (by decide) (by decide)

theorem runScrolls_value (ds : List Int) :
    ∀ s : Stats,
      (∀ x ∈ ds, -2 ^ 63 < x ∧ x < 2 ^ 63) →
      0 ≤ s.scroll_distance →
      s.scroll_distance + (sumAbs ds : Int) < 2 ^ 63 →
      (runScrolls s ds).scroll_distance
        = s.scroll_distance + (sumAbs ds : Int) := by
  induction ds with
  | nil =>
      intro s _ _ _
      simp [runScrolls, sumAbs]
  | cons x rest ih =>
      intro s hin hpos hsum
      have hx := hin x (by simp)
      have hsplit : (sumAbs (x :: rest) : Int) = (x.natAbs : Int) + (sumAbs rest : Int) := by
        simp [sumAbs]
      rw [hsplit] at hsum
      have hxv : (s.record_scroll x).scroll_distance
          = s.scroll_distance + (x.natAbs : Int) :=
        record_scroll_value s x hx.1 hx.2 (by omega) (by omega)
      have hstep := ih (s.record_scroll x) (fun y hy => hin y (by simp [hy]))
        (by omega) (by rw [hxv]; omega)
      have hrun : runScrolls s (x :: rest) = runScrolls (s.record_scroll x) rest := rfl
      rw [hrun, hstep, hxv, hsplit]
      ring

/-- Counterexample to claim C9 as stated: three scroll deltas of `2 ^ 62`,
each with a representable absolute value, overflow the `i64` accumulator, so
`scroll_distance` ends at `-2 ^ 62` instead of the sum `3 * 2 ^ 62` of the
absolute values. -/
theorem c9_scroll_sum_overflow_counterexample :
    (runScrolls (Stats.new 0)
        [4611686018427387904, 4611686018427387904, 4611686018427387904]).scroll_distance
      ≠ (sumAbs [4611686018427387904, 4611686018427387904, 4611686018427387904] : Int) := by
  decide

/-- Claim C9, amended: on a fresh aggregate, a sequence of `record_scroll`
calls whose deltas have representable absolute values accumulates
`scroll_distance` to the exact sum of those absolute values, provided the sum
stays below `2 ^ 63` (no `i64` accumulator overflow); without that proviso the
sum wraps (see the counterexample). -/
theorem c9_scroll_sum_of_abs (t : Nat) (ds : List Int)
    (hin : ∀ x ∈ ds, -2 ^ 63 < x ∧ x < 2 ^ 63)
    (hsum : (sumAbs ds : Int) < 2 ^ 63) :
    (runScrolls (Stats.new t) ds).scroll_distance = (sumAbs ds : Int) := by
  have h := runScrolls_value ds (Stats.new t) hin (by simp [Stats.new]) (by
    simp only [Stats.new]
    omega)
  rw [h]
  simp [Stats.new]

/-- Witness for amended C9, the spec's concrete scenario:
`record_scroll(-5)` then `record_scroll(3)` yields `scroll_distance = 8`. -/
theorem c9_scroll_sum_of_abs_witness :
    (runScrolls (Stats.new 0) [-5, 3]).scroll_distance = (sumAbs [-5, 3] : Int) :=
  c9_scroll_sum_of_abs 0 [-5, 3] (by decide) (by decide)

/-- Claim C10: `Stats::record_scroll` writes only `scroll_distance`; every
other field of the aggregate, including the transient ones, is returned
unchanged for every starting state and every delta. -/
theorem c10_record_scroll_frame (s : Stats) (delta : Int) :
    (s.record_scroll delta).key_counts = s.key_counts ∧
    (s.record_scroll delta).mouse_clicks = s.mouse_clicks ∧
    (s.record_scroll delta).mouse_distance = s.mouse_distance ∧
    (s.record_scroll delta).hourly_key_counts = s.hourly_key_counts ∧
    (s.record_scroll delta).hourly_click_counts = s.hourly_click_counts ∧
    (s.record_scroll delta).daily_stats = s.daily_stats ∧
    (s.record_scroll delta).session_start = s.session_start ∧
    (s.record_scroll delta).recent_keys = s.recent_keys :=
  ⟨rfl, rfl, rfl, rfl, rfl, rfl, rfl, rfl⟩

theorem mem_dailyDates_apply (s : Stats) (op : Op) (dd : String) :
    dd ∈ dailyDates (s.apply op) ↔
      dd ∈ dailyDates s ∨ (op.touchesDaily = true ∧ dd = op.date) := by
  cases op with
  | key l c =>
      simp only [Stats.apply, Stats.record_key, dailyDates]
      rw [mem_fst_entryUpdate]
      simp [Op.touchesDaily, Op.date]
  | click b c =>
      simp only [Stats.apply, Stats.record_click, dailyDates]
      rw [mem_fst_entryUpdate]
      simp [Op.touchesDaily, Op.date]
  | move d c =>
      simp only [Stats.apply, Stats.record_movement, dailyDates]
      rw [mem_fst_entryUpdate]
      simp [Op.touchesDaily, Op.date]
  | scroll delta c =>
      simp [Stats.apply, Stats.record_scroll, dailyDates, Op.touchesDaily]

theorem mem_dailyDates_runOps (ops : List Op) :
    ∀ (s : Stats) (dd : String),
      dd ∈ dailyDates (runOps s ops) ↔
        dd ∈ dailyDates s ∨ dd ∈ (ops.filter Op.touchesDaily).map Op.date := by
  induction ops with
  | nil =>
      intro s dd
      simp [runOps]
  | cons op rest ih =>
      intro s dd
      have hrun : runOps s (op :: rest) = runOps (s.apply op) rest := rfl
      rw [hrun, ih (s.apply op) dd, mem_dailyDates_apply]
      by_cases h : op.touchesDaily = true
      · simp only [List.filter_cons, h, if_true, List.map_cons, List.mem_cons]
        tauto
      · simp only [List.filter_cons, h, if_false, Bool.false_eq_true]
        tauto

/-- Counterexample to claim C7 as stated: a lone scroll event is an event,
yet it creates no `daily_stats` entry for its date, so the key set of
`daily_stats` is not the set of dates with at least one event of any kind. -/
theorem c7_scroll_date_counterexample :
    dailyDates (runOps (Stats.new 0) [Op.scroll 5 ⟨0, 0, "2024-01-01"⟩]) = [] ∧
    Op.date (Op.scroll 5 ⟨0, 0, "2024-01-01"⟩) = "2024-01-01" :=
  ⟨rfl, rfl⟩

/-- Claim C7, amended: after any sequence of record operations on a fresh
aggregate, the key set of `daily_stats` is exactly the set of local dates
carrying at least one key, click or movement event — scroll events create no
date entry — and no operation ever removes a date entry. -/
theorem c7_daily_dates_exact (t : Nat) (ops : List Op) (dd : String)
    (s : Stats) (op : Op) :
    (dd ∈ dailyDates (runOps (Stats.new t) ops) ↔
        dd ∈ (ops.filter Op.touchesDaily).map Op.date) ∧
    (dd ∈ dailyDates s → dd ∈ dailyDates (s.apply op)) := by
  constructor
  · rw [mem_dailyDates_runOps]
    simp [Stats.new, dailyDates]
  · intro h
    rw [mem_dailyDates_apply]
    exact Or.inl h

/-- Claim C2: `save` followed by `load` reproduces every persisted field of
the aggregate exactly, while `session_start` is reset to the fresh load-time
now and `recent_keys` comes back empty. -/
theorem c2_save_load_roundtrip (m : StatsManager) (h : m.stats.WF) (t : Nat) :
    load_from_file (some m.save) t =
      .ok { m.stats with session_start := some t, recent_keys := [] } := by
  have hd := decodeStatsObj_encodeStatsFields m.stats h
  simp only [StatsManager.save, load_from_file, encodeStats, decodeStats]
  rw [hd, andThenE_ok]

/-- Witness for C2 on a populated concrete aggregate, loaded at time 99. -/
theorem c2_save_load_roundtrip_witness :
    load_from_file (some sampleManager.save) 99 =
      .ok { sampleManager.stats with session_start := some 99, recent_keys := [] } :=
  c2_save_load_roundtrip sampleManager
    (by refine ⟨?_, ?_, ⟨?_, ?_⟩, ?_, ?_, ?_⟩ <;> decide) 99

/-- Claim C3: whenever the durable content is absent, unreadable, zero-byte
or fails to decode as the expected schema — exactly the cases in which
`load_from_file` returns an error — startup construction falls back to the
fresh empty aggregate with `session_start := now`; the model is a total
function, mirroring that no load outcome panics or aborts startup. -/
theorem c3_load_failure_falls_back (content : Option Json) (t : Nat) (e : String)
    (h : load_from_file content t = .error e) :
    StatsManager.new content t =
      { stats := Stats.new t, last_key := none, last_click := none } := by
  simp only [StatsManager.new, h]

/-- Witness for C3 on a malformed (non-object) durable content. -/
theorem c3_load_failure_falls_back_witness :
    StatsManager.new (some (Json.str "bad")) 5 =
      { stats := Stats.new 5, last_key := none, last_click := none } :=
  c3_load_failure_falls_back (some (Json.str "bad")) 5 "expected object" rfl

/-- Counterexample to claim C6 as stated: a durable file holding only
`key_counts` (all other persisted fields missing) fails the whole parse —
the source derives `Deserialize` without `#[serde(default)]`, so a missing
field is an error — and load falls back to the fresh empty aggregate instead
of restoring the field that was present. -/
theorem c6_missing_field_counterexample :
    load_from_file (some (Json.obj [("key_counts",
        Json.obj [("A", Json.num 3)])])) 0
      = .error "missing field mouse_clicks" ∧
    (StatsManager.new (some (Json.obj [("key_counts",
        Json.obj [("A", Json.num 3)])])) 0).stats = Stats.new 0 ∧
    (Stats.new 0).key_counts ≠ [("A", 3)] := by
  refine ⟨rfl, rfl, by decide⟩

theorem decodeStatsObj_cons_unknown (name : String) (j : Json)
    (fields : List (String × Json))
    (h1 : name ≠ "key_counts") (h2 : name ≠ "mouse_clicks")
    (h3 : name ≠ "mouse_distance") (h4 : name ≠ "scroll_distance")
    (h5 : name ≠ "hourly_key_counts") (h6 : name ≠ "hourly_click_counts")
    (h7 : name ≠ "daily_stats") :
    decodeStatsObj ((name, j) :: fields) = decodeStatsObj fields := by
  simp only [decodeStatsObj, getField]
  rw [if_neg h1, if_neg h2, if_neg h3, if_neg h4, if_neg h5, if_neg h6,
    if_neg h7]

/-- Claim C6, amended: unknown fields are ignored on load — prepending a
field with any unknown name to a save image decodes exactly as without it —
but a missing persisted field fails the whole load (see the counterexample),
after which startup falls back to the fresh empty aggregate rather than
restoring the fields that were present. -/
theorem c6_unknown_fields_ignored (s : Stats) (h : s.WF) (name : String)
    (j : Json) (t : Nat)
    (hname : name ∉ ["key_counts", "mouse_clicks", "mouse_distance",
      "scroll_distance", "hourly_key_counts", "hourly_click_counts",
      "daily_stats"]) :
    load_from_file (some (.obj ((name, j) :: encodeStatsFields s))) t =
      .ok { s with session_start := some t, recent_keys := [] } := by
  simp only [List.mem_cons, List.not_mem_nil, or_false, not_or] at hname
  obtain ⟨h1, h2, h3, h4, h5, h6, h7⟩ := hname
  simp only [load_from_file, decodeStats]
  rw [decodeStatsObj_cons_unknown name j _ h1 h2 h3 h4 h5 h6 h7]
  rw [decodeStatsObj_encodeStatsFields s h, andThenE_ok]

/-- Witness for amended C6: an unknown field `future_field` is ignored and the
populated sample aggregate still round-trips. -/
theorem c6_unknown_fields_ignored_witness :
    load_from_file (some (.obj (("future_field", Json.num 1) ::
        encodeStatsFields sampleStats))) 42 =
      .ok { sampleStats with session_start := some 42, recent_keys := [] } :=
  c6_unknown_fields_ignored sampleStats
    (by refine ⟨?_, ?_, ⟨?_, ?_⟩, ?_, ?_, ?_⟩ <;> decide) "future_field"
    (Json.num 1) 42 (by decide)

end RustFinger
